import Mathlib

/-!
Shallow embedding of `src/backend/lambda_function.py`, the batch
metric-collection engine of the centralized lambda visualization dashboard.
Remote collaborators (the AWS Lambda / CloudWatch / S3 clients) are modelled
as an environment of oracles supplying the fetch outcomes; all pure logic
(validation, windowing, retry/backoff, risk classification, row construction,
batching, report assembly) is translated directly from the source.
-/

namespace LambdaDashboard

/-- Source constant `MAX_RETRIES = 5` (lambda_function.py line 15). -/
def MAX_RETRIES : Nat := 5

/-- Source constant `RETRY_SLEEP = 1` (line 16), the backoff base in seconds. -/
def RETRY_SLEEP : Nat := 1

/-- Source constant `MAX_CONCURRENT_TASKS = 10` (line 17). -/
def MAX_CONCURRENT_TASKS : Nat := 10

/-- Source constant `BATCH_SIZE = 500` (line 18). -/
def BATCH_SIZE : Nat := 500

/-- Value stored in one cell of a report row: the Python dicts built by
`analyze_function` hold strings and numbers.  CloudWatch statistic values are
modelled as rationals. -/
inductive CellValue where
  | str (s : String)
  | num (q : ℚ)
deriving DecidableEq, Repr

/-- A report row: a Python dict with insertion order preserved, i.e. an
ordered association list from column name to cell value. -/
abbrev Row := List (String × CellValue)

/-- Outcome of one remote `get_metric_statistics` attempt, as seen by the
`except ClientError` logic of `get_metric` (lines 148-163): a successful
response carrying the requested statistic of each datapoint, a `ClientError`
with code `Throttling`, or a `ClientError` with any other code. -/
inductive FetchOutcome where
  | ok (datapoints : List ℚ)
  | throttle
  | otherError
deriving DecidableEq, Repr

/-- Result of running the `get_metric` retry loop: the returned value, the
number of remote attempts actually made, and the total seconds spent in
backoff sleeps. -/
structure MetricRun where
  value : ℚ
  attempts : Nat
  slept : Nat
deriving DecidableEq, Repr

/-- The `for attempt in range(MAX_RETRIES)` loop of `get_metric`
(lines 146-163), recursing on the number of remaining loop iterations.
`fetch a` is the outcome of the remote call on loop index `a`.
On success the value is `datapoints[0]` if any datapoint exists, else 0;
on `Throttling` the loop sleeps `RETRY_SLEEP * 2 ^ attempt` and retries;
on any other `ClientError` it returns 0 at once; when the loop exhausts
(line 164-165) it returns 0. -/
def getMetricLoop (fetch : Nat → FetchOutcome) : Nat → Nat → MetricRun
  | 0, _ => ⟨0, 0, 0⟩
  | remaining + 1, attempt =>
    match fetch attempt with
    | .ok datapoints => ⟨datapoints.headD 0, 1, 0⟩
    | .throttle =>
      let rest := getMetricLoop fetch remaining (attempt + 1)
      ⟨rest.value, rest.attempts + 1, rest.slept + RETRY_SLEEP * 2 ^ attempt⟩
    | .otherError => ⟨0, 1, 0⟩

/-- `get_metric` (lines 145-165): run the retry loop with `MAX_RETRIES`
iterations starting at attempt 0. -/
def getMetric (fetch : Nat → FetchOutcome) : MetricRun :=
  getMetricLoop fetch MAX_RETRIES 0

/-- Python `str.startswith`, modelled on the underlying character lists (the
byte-indexed loop of `String.startsWith` does not reduce in the kernel). -/
def strStartsWith (s pre : String) : Bool :=
  pre.data.isPrefixOf s.data

/-- The cold-start classification of line 123:
`"High" if memory < 256 or runtime.startswith("java") or arch == "arm64" else "Low"`. -/
def coldStartRisk (memory : Nat) (runtime arch : String) : String :=
  if memory < 256 || strStartsWith runtime "java" || arch == "arm64" then "High" else "Low"

/-- Nearest integer to a rational, computed as `⌊q + 1/2⌋` by explicit
floor division on numerator and denominator. -/
def roundNearest (q : ℚ) : ℤ := Int.fdiv (2 * q.num + q.den) (2 * q.den)

/-- Python `round(x, 2)` on the duration average (line 129), modelled as
rounding to the nearest multiple of 1/100 (the half-even versus half-up
tie-break of floats is immaterial to every claim). -/
def roundTo2 (q : ℚ) : ℚ := (roundNearest (q * 100) : ℚ) / 100

/-- The fields of a `get_function_configuration` response that
`analyze_function` reads (lines 120-140), each optional because the code
supplies a default via `dict.get`.  `provisionedConcurrency` mirrors the
two-level access `config.get("ProvisionedConcurrencyConfig", {}).get(
"AllocatedProvisionedConcurrentExecutions", 0)`: the outer option is the
config key, the inner one the allocation key. -/
structure ConfigResp where
  memorySize : Option Nat
  runtime : Option String
  architectures : Option (List String)
  timeout : Option Nat
  packageType : Option String
  provisionedConcurrency : Option (Option Nat)
deriving DecidableEq, Repr

/-- A configuration response with every optional field absent. -/
def emptyConfig : ConfigResp := ⟨none, none, none, none, none, none⟩

/-- The remote collaborators of §6 of the design: the function lister, the
config fetcher (`ClientError` modelled as `Except.error`), and the
per-attempt metric fetch oracle (function name, metric name, attempt index). -/
structure Env where
  functions : List String
  getConfig : String → Except Unit ConfigResp
  fetch : String → String → Nat → FetchOutcome

/-- `analyze_function` (lines 111-143) minus the semaphore bracket (modelled
separately as the scheduler below): fetch the configuration — on `ClientError`
return `None` (line 118) — then read the config fields with their `dict.get`
defaults, classify cold-start risk, fetch the five metrics, and build the row
dict in source insertion order.  The `[0]` index into the architecture list
(line 122) is `headD "x86_64"`; under the API contract a present
`Architectures` list is non-empty, so the fallback is unreachable. -/
def analyzeFunction (env : Env) (name : String) : Option Row :=
  match env.getConfig name with
  | .error _ => none
  | .ok config =>
    let memory := config.memorySize.getD 0
    let runtime := config.runtime.getD "unknown"
    let arch := (config.architectures.getD ["x86_64"]).headD "x86_64"
    let risk := coldStartRisk memory runtime arch
    some [
      ("Function Name", .str name),
      ("Runtime", .str runtime),
      ("Memory Size (MB)", .num memory),
      ("Timeout (sec)", .num (config.timeout.getD 0)),
      ("Package Type", .str (config.packageType.getD "Zip")),
      ("Provisioned Concurrency", .num ((config.provisionedConcurrency.getD none).getD 0)),
      ("Cold Start Risk", .str risk),
      ("Invocations", .num (getMetric (env.fetch name "Invocations")).value),
      ("Errors", .num (getMetric (env.fetch name "Errors")).value),
      ("Throttles", .num (getMetric (env.fetch name "Throttles")).value),
      ("Duration (sec)", .num (roundTo2 ((getMetric (env.fetch name "Duration")).value / 1000))),
      ("ConcurrentExecutions", .num (getMetric (env.fetch name "ConcurrentExecutions")).value)
    ]

/-- The fixed key set every produced row carries, in insertion order. -/
def rowKeys : List String :=
  ["Function Name", "Runtime", "Memory Size (MB)", "Timeout (sec)", "Package Type",
   "Provisioned Concurrency", "Cold Start Risk", "Invocations", "Errors", "Throttles",
   "Duration (sec)", "ConcurrentExecutions"]

/-- The chunked loop of `analyze_functions_in_batches` (lines 100-107):
`for i in range(0, len(all_functions), BATCH_SIZE)` takes the slice
`all_functions[i : i + BATCH_SIZE]`, launches one `analyze_function` task per
member, awaits `asyncio.gather(*tasks)` — which returns the task results in
the order the tasks were appended, i.e. the slice's input order, regardless
of the order in which the tasks complete — and extends `insights` with the
non-`None` results (`filter(None, results)`; every produced row is a
non-empty dict, hence truthy). -/
def batchLoop (env : Env) (pending : List String) (insights : List Row) : List Row :=
  match h : pending with
  | [] => insights
  | _ :: _ =>
    batchLoop env (pending.drop BATCH_SIZE)
      (insights ++ ((pending.take BATCH_SIZE).map (analyzeFunction env)).filterMap id)
  termination_by pending.length
  decreasing_by
    simp only [h, List.length_drop, List.length_cons, BATCH_SIZE]
    omega

/-- `analyze_functions_in_batches` (lines 94-109). -/
def analyzeFunctionsInBatches (env : Env) (allFunctions : List String) : List Row :=
  batchLoop env allFunctions []

/-- Rows listed in an arbitrary task completion order: `order` gives the
indices into `allFunctions` in the order the analysis tasks finish (sustained
backoff on one resource makes later resources finish first, so any
permutation can occur).  This is the report the spec's completion-order
sentence predicts, to be compared with what the code produces. -/
def completionOrderRows (env : Env) (allFunctions : List String) (order : List Nat) : List Row :=
  (order.filterMap (fun i => allFunctions[i]?)).filterMap (analyzeFunction env)

/-- Gregorian leap-year test, as in Python's `datetime` calendar. -/
def isLeap (y : Nat) : Bool := y % 4 == 0 && (y % 100 != 0 || y % 400 == 0)

/-- Days in a month of the proleptic Gregorian calendar. -/
def daysInMonth (y m : Nat) : Nat :=
  if m = 2 then (if isLeap y then 29 else 28)
  else if m = 4 || m = 6 || m = 9 || m = 11 then 30
  else 31

/-- A calendar date as produced by `datetime.strptime(s, "%Y-%m-%d")`. -/
structure Date where
  year : Nat
  month : Nat
  day : Nat
deriving DecidableEq, Repr

/-- Day number of a date counted from the proleptic Gregorian epoch; a
strictly monotone encoding of midnight `datetime` values, so `datetime`
comparison and `timedelta(days=1)` become arithmetic on day numbers. -/
def toDays (d : Date) : Nat :=
  let y := d.year
  let priorYears := 365 * (y - 1) + (y - 1) / 4 - (y - 1) / 100 + (y - 1) / 400
  let priorMonths := (List.range (d.month - 1)).foldl (fun acc i => acc + daysInMonth y (i + 1)) 0
  priorYears + priorMonths + d.day

/-- Python `s.split('-')`, on the character list (the byte-indexed
`String.splitOn` does not reduce in the kernel). -/
def splitOnDash : List Char → List (List Char)
  | [] => [[]]
  | c :: cs =>
    if c = '-' then [] :: splitOnDash cs
    else match splitOnDash cs with
      | [] => [[c]]
      | cur :: rest => (c :: cur) :: rest

/-- Decimal parse of one date field: all characters must be digits. -/
def charsToNat? (cs : List Char) : Option Nat :=
  if cs ≠ [] && cs.all (fun c => c.isDigit) then
    some (cs.foldl (fun acc c => acc * 10 + (c.toNat - '0'.toNat)) 0)
  else none

/-- `datetime.strptime(s, "%Y-%m-%d")` (lines 47-48): split on `-`, require
three numeric fields forming a valid calendar date, raise `ValueError`
(here `none`) otherwise. -/
def strptimeYmd (s : String) : Option Date :=
  match (splitOnDash s.data).map charsToNat? with
  | [some y, some m, some d] =>
    if 1 ≤ y && 1 ≤ m && m ≤ 12 && 1 ≤ d && d ≤ daysInMonth y m then
      some ⟨y, m, d⟩
    else none
  | _ => none

/-- The request body after JSON parsing: `body.get(...)` for each of the four
fields (lines 34-37), `none` when the key is missing. -/
structure ReqBody where
  region : Option String
  start_date : Option String
  end_date : Option String
  bucket_name : Option String
deriving DecidableEq, Repr

/-- Body of an HTTP response.  `build_response` wraps `{"error": msg}` in
`json.dumps` (modelled as the `jsonError` constructor); the no-data branch of
line 64 returns the bare string `"No function metrics collected."`; the
success branch returns the report-generated message with the S3 URL (whose
timestamped file name is irrelevant to every claim, so only bucket and region
are carried). -/
inductive ResponseBody where
  | jsonError (msg : String)
  | plain (msg : String)
  | success (bucket region : String)
deriving DecidableEq, Repr

/-- An HTTP response: status code and body. -/
structure Resp where
  statusCode : Nat
  body : ResponseBody
deriving DecidableEq, Repr

/-- `build_response` (lines 167-171). -/
def buildResponse (statusCode : Nat) (msg : String) : Resp :=
  ⟨statusCode, .jsonError msg⟩

/-- Python truthiness of `body.get(k)` as used by
`all([region, start_date, end_date, bucket_name])` (line 39): a missing key
yields `None` (falsy) and an empty string is also falsy. -/
def truthy (o : Option String) : Bool :=
  match o with
  | none => false
  | some s => s ≠ ""

/-- The report-assembly step of `handle_event` (lines 63-72): with no
collected insights return the distinct no-data failure; otherwise headers are
the keys of the first row in its insertion order, and each row is rendered in
header order with `item.get(h, '')` substituting the empty string for an
absent key. -/
def reportStep (insights : List Row) : Except String (List String × List (List CellValue)) :=
  match insights with
  | [] => .error "No function metrics collected."
  | first :: _ =>
    let headers := first.map Prod.fst
    .ok (headers,
      insights.map (fun item => headers.map (fun h => (item.lookup h).getD (.str ""))))

/-- `handle_event` (lines 24-92).  The `event.get("body")` / JSON-parse step
is modelled by the optional `ReqBody`.  Control flow in source order: missing
body → 400; falsy required field → 400; `strptime` failure raises
`ValueError`, which only the top-level `except Exception` handler catches,
producing the generic 500; `start_time >= end_time` (with
`end_time = end_date + 1 day`) → 400; otherwise list functions, run the
batches, and either report no data (500) or build and upload the workbook
(200). -/
def handleEvent (env : Env) (event : Option ReqBody) : Resp :=
  match event with
  | none => buildResponse 400 "Missing request body."
  | some body =>
    if truthy body.region && truthy body.start_date && truthy body.end_date &&
        truthy body.bucket_name then
      match strptimeYmd (body.start_date.getD ""), strptimeYmd (body.end_date.getD "") with
      | some s, some e =>
        let startDay := toDays s
        let endDay := toDays e + 1
        if endDay ≤ startDay then
          buildResponse 400 "Start date must be before end date."
        else
          match reportStep (analyzeFunctionsInBatches env env.functions) with
          | .error msg => ⟨500, .plain msg⟩
          | .ok _ => ⟨200, .success (body.bucket_name.getD "") (body.region.getD "")⟩
      | _, _ => buildResponse 500 "Internal server error."
    else buildResponse 400 "Missing one or more required fields in request body."

/-- One remote API call, with enough detail to state which time window a
metric query used. -/
inductive RemoteCall where
  | listFunctions
  | getFunctionConfiguration (name : String)
  | getMetricStatistics (name metric : String) (startDay endDay : Nat)
  | uploadFile (bucket : String)
deriving DecidableEq, Repr

/-- The ordered metric names fetched by `analyze_function` (lines 126-130). -/
def metricNames : List String :=
  ["Invocations", "Errors", "Throttles", "Duration", "ConcurrentExecutions"]

/-- Remote calls issued by one `analyze_function` run: one
`get_function_configuration` call, then — only if it succeeded — as many
`get_metric_statistics` calls per metric as the retry loop attempted, each
with the shared `[start_time, end_time)` window. -/
def analyzeFunctionCalls (env : Env) (startDay endDay : Nat) (name : String) :
    List RemoteCall :=
  .getFunctionConfiguration name ::
    match env.getConfig name with
    | .error _ => []
    | .ok _ =>
      metricNames.flatMap (fun m =>
        List.replicate (getMetric (env.fetch name m)).attempts
          (.getMetricStatistics name m startDay endDay))

/-- Remote calls issued by `handle_event`, mirroring `handleEvent` branch for
branch: every rejection path issues none; the accepted path lists the
functions, analyzes each, and uploads the workbook when rows were
collected. -/
def handleEventCalls (env : Env) (event : Option ReqBody) : List RemoteCall :=
  match event with
  | none => []
  | some body =>
    if truthy body.region && truthy body.start_date && truthy body.end_date &&
        truthy body.bucket_name then
      match strptimeYmd (body.start_date.getD ""), strptimeYmd (body.end_date.getD "") with
      | some s, some e =>
        let startDay := toDays s
        let endDay := toDays e + 1
        if endDay ≤ startDay then []
        else
          .listFunctions ::
            env.functions.flatMap (analyzeFunctionCalls env startDay endDay) ++
              (if analyzeFunctionsInBatches env env.functions = [] then []
               else [.uploadFile (body.bucket_name.getD "")])
      | _, _ => []
    else []

/-- One atomic step of an `analyze_function` task under the asyncio event
loop: the `async with semaphore` entry (line 112), an await that does remote
work (config or metric fetch), an `asyncio.sleep` backoff await (line 160),
or the `async with` exit when the function body returns. -/
inductive Action where
  | acquire
  | work
  | sleep
  | release
deriving DecidableEq, Repr

/-- The action sequence of one `analyze_function` task: the body of the
function — every config fetch, metric fetch and backoff sleep — runs
entirely inside the `async with semaphore` block, so the program is the
acquire, then the body actions, then the release, in that order. -/
def analyzeProgram (body : List Action) : List Action :=
  Action.acquire :: (body ++ [Action.release])

/-- Number of tasks currently holding a semaphore slot: task `i` holds a
slot exactly when its program counter is past its `acquire` (index 0) and
its `release` has not yet executed (counter still below the program
length). -/
def activeCount : List Nat → List (List Action) → Nat
  | pc :: pcs, p :: ps =>
    (if 1 ≤ pc ∧ pc < p.length then 1 else 0) + activeCount pcs ps
  | _, _ => 0

/-- One scheduler step: run the next action of task `i`.  An `acquire` is
enabled only while fewer than `K` tasks hold a slot — the admission rule of
`asyncio.Semaphore(K)`; every other action is always enabled.  `none` means
task `i` cannot step (finished, out of range, or blocked on the
semaphore). -/
def schedStep (progs : List (List Action)) (K : Nat) (pcs : List Nat) (i : Nat) :
    Option (List Nat) :=
  match progs[i]?, pcs[i]? with
  | some p, some pc =>
    match p[pc]? with
    | some .acquire =>
      if activeCount pcs progs < K then some (pcs.set i (pc + 1)) else none
    | some _ => some (pcs.set i (pc + 1))
    | none => none
  | _, _ => none

/-- Run a schedule — the list of task choices the event loop makes — step by
step from a given state; `none` as soon as a chosen task cannot step. -/
def runSchedFrom (progs : List (List Action)) (K : Nat) :
    List Nat → List Nat → Option (List Nat)
  | [], pcs => some pcs
  | c :: cs, pcs =>
    match schedStep progs K pcs c with
    | none => none
    | some pcs2 => runSchedFrom progs K cs pcs2

/-- Run a whole schedule from the initial state where no task has started. -/
def runSched (progs : List (List Action)) (K : Nat) (choices : List Nat) :
    Option (List Nat) :=
  runSchedFrom progs K choices (List.replicate progs.length 0)

/-- Concrete fetcher that throttles on the first two attempts and then
succeeds with a single datapoint of value 5. -/
def fetchThrottleTwice : Nat → FetchOutcome :=
  fun a => if a < 2 then .throttle else .ok [5]

/-- Concrete fetcher that throttles on every attempt. -/
def fetchAlwaysThrottle : Nat → FetchOutcome :=
  fun _ => .throttle

/-- Concrete fetcher that fails with a non-throttling error at once. -/
def fetchOtherErrorFirst : Nat → FetchOutcome :=
  fun _ => .otherError

/-- Running the retry loop past `R` consecutive throttled attempts adds `R`
attempts and the geometric backoff sleeps `RETRY_SLEEP * 2 ^ a` for each
throttled attempt index `a`, then continues as the loop from attempt
`attempt + R` with `R` fewer iterations left. -/
lemma getMetricLoop_skip (fetch : Nat → FetchOutcome) :
    ∀ (R remaining attempt : Nat), R ≤ remaining →
    (∀ a, attempt ≤ a → a < attempt + R → fetch a = .throttle) →
    getMetricLoop fetch remaining attempt =
      ⟨(getMetricLoop fetch (remaining - R) (attempt + R)).value,
       (getMetricLoop fetch (remaining - R) (attempt + R)).attempts + R,
       (getMetricLoop fetch (remaining - R) (attempt + R)).slept
         + ∑ i ∈ Finset.range R, RETRY_SLEEP * 2 ^ (attempt + i)⟩ := by
  intro R
  induction R with
  | zero => intro remaining attempt _ _; simp
  | succ R ih =>
    intro remaining attempt hle hpre
    obtain ⟨rem, rfl⟩ : ∃ rem, remaining = rem + 1 :=
      ⟨remaining - 1, by omega⟩
    have hthr : fetch attempt = .throttle :=
      hpre attempt le_rfl (by omega)
    have hrec := ih rem (attempt + 1)
      (by omega)
      (fun a ha hb => hpre a (by omega) (by omega))
    simp only [getMetricLoop, hthr]
    rw [hrec]
    have harg1 : rem - R = rem + 1 - (R + 1) := by omega
    have harg2 : attempt + 1 + R = attempt + (R + 1) := by omega
    rw [harg1, harg2]
    simp only [MetricRun.mk.injEq]
    refine ⟨trivial, by omega, ?_⟩
    rw [Finset.sum_range_succ']
    simp only [Nat.add_zero]
    have hidx : ∀ i, attempt + 1 + i = attempt + (i + 1) := fun i => by omega
    simp only [hidx]
    omega

/-- C4: a metric fetch throttled on the first `R < MAX_RETRIES` attempts and
succeeding on attempt `R + 1` returns the real statistic value after making
exactly `R + 1` attempts and sleeping cumulatively
`∑ i < R, RETRY_SLEEP * 2 ^ i` seconds (hence at least that much); a fetch
throttled on every attempt makes exactly `MAX_RETRIES` attempts, no more and
no fewer, and returns 0. -/
theorem c4_backoff_retry :
    (∀ (fetch : Nat → FetchOutcome) (R : Nat) (d : ℚ) (ds : List ℚ),
      R < MAX_RETRIES →
      (∀ a, a < R → fetch a = .throttle) →
      fetch R = .ok (d :: ds) →
      getMetric fetch = ⟨d, R + 1, ∑ i ∈ Finset.range R, RETRY_SLEEP * 2 ^ i⟩ ∧
      (∑ i ∈ Finset.range R, RETRY_SLEEP * 2 ^ i) ≤ (getMetric fetch).slept) ∧
    (∀ fetch : Nat → FetchOutcome, (∀ a, fetch a = .throttle) →
      getMetric fetch =
        ⟨0, MAX_RETRIES, ∑ i ∈ Finset.range MAX_RETRIES, RETRY_SLEEP * 2 ^ i⟩) := by
  constructor
  · intro fetch R d ds hR hpre hok
    have hskip := getMetricLoop_skip fetch R MAX_RETRIES 0 (le_of_lt hR)
      (fun a ha hb => hpre a (by omega))
    obtain ⟨m, hm⟩ : ∃ m, MAX_RETRIES - R = m + 1 := ⟨MAX_RETRIES - R - 1, by omega⟩
    have hstep : getMetricLoop fetch (MAX_RETRIES - R) (0 + R) = ⟨d, 1, 0⟩ := by
      rw [hm]
      simp only [getMetricLoop, Nat.zero_add, hok, List.headD_cons]
    constructor
    · rw [getMetric, hskip, hstep]
      simp only [MetricRun.mk.injEq, Nat.zero_add, Nat.zero_add, zero_add]
      exact ⟨trivial, by omega, trivial⟩
    · rw [getMetric, hskip, hstep]
      simp
  · intro fetch hthr
    have hskip := getMetricLoop_skip fetch MAX_RETRIES MAX_RETRIES 0 le_rfl
      (fun a _ _ => hthr a)
    rw [getMetric, hskip]
    simp [getMetricLoop]

/-- C7: a metric fetch whose first non-throttled outcome, on attempt `k + 1`,
is a non-rate-limit error performs no further retry: it returns 0 having made
exactly the `k + 1` attempts up to and including the one that failed — in
particular a failure on the very first attempt yields 0 after one attempt. -/
theorem c7_other_error_no_retry :
    ∀ (fetch : Nat → FetchOutcome) (k : Nat),
      k < MAX_RETRIES →
      (∀ a, a < k → fetch a = .throttle) →
      fetch k = .otherError →
      (getMetric fetch).value = 0 ∧ (getMetric fetch).attempts = k + 1 := by
  intro fetch k hk hpre herr
  have hskip := getMetricLoop_skip fetch k MAX_RETRIES 0 (le_of_lt hk)
    (fun a ha hb => hpre a (by omega))
  obtain ⟨m, hm⟩ : ∃ m, MAX_RETRIES - k = m + 1 := ⟨MAX_RETRIES - k - 1, by omega⟩
  have hstep : getMetricLoop fetch (MAX_RETRIES - k) (0 + k) = ⟨0, 1, 0⟩ := by
    rw [hm]
    simp only [getMetricLoop, Nat.zero_add, herr]
  rw [getMetric, hskip, hstep]
  constructor
  · rfl
  · simp [Nat.add_comm]

/-- A witness for the backoff theorem: two throttles then success returns the
datapoint value 5 in three attempts with 3 seconds of cumulative sleep, and
the always-throttling fetcher exhausts all five attempts. -/
theorem c4_backoff_retry_witness :
    (getMetric fetchThrottleTwice =
      ⟨5, 2 + 1, ∑ i ∈ Finset.range 2, RETRY_SLEEP * 2 ^ i⟩ ∧
     (∑ i ∈ Finset.range 2, RETRY_SLEEP * 2 ^ i) ≤ (getMetric fetchThrottleTwice).slept) ∧
    getMetric fetchAlwaysThrottle =
      ⟨0, MAX_RETRIES, ∑ i ∈ Finset.range MAX_RETRIES, RETRY_SLEEP * 2 ^ i⟩ :=
  ⟨c4_backoff_retry.1 fetchThrottleTwice 2 5 [] (by decide)
      (fun a ha => by simp [fetchThrottleTwice, ha])
      (by simp [fetchThrottleTwice]),
   c4_backoff_retry.2 fetchAlwaysThrottle (fun a => rfl)⟩

/-- A witness for the no-retry theorem: a non-throttling error on the first
attempt yields value 0 after exactly one attempt. -/
theorem c7_other_error_no_retry_witness :
    (getMetric fetchOtherErrorFirst).value = 0 ∧
    (getMetric fetchOtherErrorFirst).attempts = 0 + 1 :=
  c7_other_error_no_retry fetchOtherErrorFirst 0 (by decide)
    (fun a ha => absurd ha (Nat.not_lt_zero a)) rfl

/-- Concrete environment in which every configuration fetch succeeds with the
all-defaults configuration and every metric fetch succeeds with no
datapoints. -/
def envAllOk : Env := ⟨[], fun _ => .ok emptyConfig, fun _ _ _ => .ok []⟩

/-- C6: cold-start risk is a pure function of the fetched configuration,
`"High"` exactly when memory is below 256 MB, or the runtime starts with
`"java"` (the flagged heavy-init family), or the architecture is `"arm64"`
(the designated alternate architecture), `"Low"` otherwise; the three spec
vectors evaluate as claimed; and the row built by `analyzeFunction` carries
exactly this classification of the fetched configuration's fields. -/
theorem c6_cold_start_risk :
    (∀ (memory : Nat) (runtime arch : String),
      coldStartRisk memory runtime arch = "High" ↔
        (memory < 256 ∨ strStartsWith runtime "java" = true ∨ arch = "arm64")) ∧
    coldStartRisk 128 "python3.12" "x86_64" = "High" ∧
    coldStartRisk 512 "python3.12" "x86_64" = "Low" ∧
    coldStartRisk 512 "python3.12" "arm64" = "High" ∧
    (∀ (env : Env) (name : String) (config : ConfigResp),
      env.getConfig name = .ok config →
      (analyzeFunction env name).bind (fun r => r.lookup "Cold Start Risk") =
        some (.str (coldStartRisk (config.memorySize.getD 0)
          (config.runtime.getD "unknown")
          ((config.architectures.getD ["x86_64"]).headD "x86_64")))) := by
  refine ⟨?_, by decide, by decide, by decide, ?_⟩
  · intro memory runtime arch
    simp only [coldStartRisk]
    by_cases h1 : (memory < 256 || strStartsWith runtime "java" || arch == "arm64") = true
    · rw [if_pos h1]
      simp only [Bool.or_eq_true, decide_eq_true_eq, beq_iff_eq] at h1
      exact iff_of_true rfl (or_assoc.mp h1)
    · rw [if_neg h1]
      constructor
      · intro hc
        exact absurd hc (by decide)
      · intro hr
        apply absurd _ h1
        simp only [Bool.or_eq_true, decide_eq_true_eq, beq_iff_eq]
        exact or_assoc.mpr hr
  · intro env name config h
    simp [analyzeFunction, h, List.lookup]

/-- A witness for the cold-start theorem: in the all-defaults environment the
produced row's risk cell is the classification of the default fields. -/
theorem c6_cold_start_risk_witness :
    (analyzeFunction envAllOk "f").bind (fun r => r.lookup "Cold Start Risk") =
      some (.str (coldStartRisk (emptyConfig.memorySize.getD 0)
        (emptyConfig.runtime.getD "unknown")
        ((emptyConfig.architectures.getD ["x86_64"]).headD "x86_64"))) :=
  c6_cold_start_risk.2.2.2.2 envAllOk "f" emptyConfig rfl

/-- The batch loop appends, to the accumulated insights, the non-`None`
analysis results of the pending functions in input order: `asyncio.gather`
preserves submission order, so chunking never reorders rows. -/
lemma batchLoop_eq (env : Env) :
    ∀ (n : Nat) (pending : List String) (insights : List Row),
      pending.length ≤ n →
      batchLoop env pending insights =
        insights ++ pending.filterMap (analyzeFunction env) := by
  intro n
  induction n with
  | zero =>
    intro pending insights hlen
    have hnil : pending = [] := List.eq_nil_of_length_eq_zero (Nat.le_zero.mp hlen)
    subst hnil
    rw [batchLoop.eq_def]
    simp
  | succ n ih =>
    intro pending insights hlen
    cases pending with
    | nil =>
      rw [batchLoop.eq_def]
      simp
    | cons x rest =>
      rw [batchLoop.eq_def]
      simp only []
      rw [ih ((x :: rest).drop BATCH_SIZE) _
        (by simp only [List.length_drop, List.length_cons, BATCH_SIZE] at hlen ⊢; omega)]
      simp only [List.filterMap_map, Function.comp_def, id_eq]
      rw [List.append_assoc, ← List.filterMap_append, List.take_append_drop]

/-- `analyze_functions_in_batches` is the input-order `filterMap` of
per-function analysis over the whole function list. -/
lemma analyzeFunctionsInBatches_eq (env : Env) (fns : List String) :
    analyzeFunctionsInBatches env fns = fns.filterMap (analyzeFunction env) := by
  rw [analyzeFunctionsInBatches, batchLoop_eq env fns.length fns [] le_rfl]
  rfl

/-- A metric fetch that never succeeds — every attempt throttles or fails
with another error — produces the degraded value 0. -/
lemma getMetricLoop_fail_value (fetch : Nat → FetchOutcome)
    (h : ∀ a, fetch a = .throttle ∨ fetch a = .otherError) :
    ∀ (remaining attempt : Nat), (getMetricLoop fetch remaining attempt).value = 0 := by
  intro remaining
  induction remaining with
  | zero => intro attempt; rfl
  | succ n ih =>
    intro attempt
    rcases h attempt with hh | hh <;> simp only [getMetricLoop, hh]
    exact ih (attempt + 1)

/-- C10: a successfully fetched configuration with every optional field
absent still yields a row, built from the fixed defaults — memory 0 (hence
cold-start risk `"High"`), runtime `"unknown"`, architecture default
`["x86_64"]`, timeout 0, package type `"Zip"`, provisioned concurrency 0 —
and every row any environment ever produces carries exactly the fixed key
set `rowKeys` in the same order. -/
theorem c10_sparse_config_defaults :
    (∀ (env : Env) (name : String),
      env.getConfig name = .ok emptyConfig →
      analyzeFunction env name = some [
        ("Function Name", .str name),
        ("Runtime", .str "unknown"),
        ("Memory Size (MB)", .num 0),
        ("Timeout (sec)", .num 0),
        ("Package Type", .str "Zip"),
        ("Provisioned Concurrency", .num 0),
        ("Cold Start Risk", .str "High"),
        ("Invocations", .num (getMetric (env.fetch name "Invocations")).value),
        ("Errors", .num (getMetric (env.fetch name "Errors")).value),
        ("Throttles", .num (getMetric (env.fetch name "Throttles")).value),
        ("Duration (sec)", .num (roundTo2 ((getMetric (env.fetch name "Duration")).value / 1000))),
        ("ConcurrentExecutions", .num (getMetric (env.fetch name "ConcurrentExecutions")).value)]) ∧
    (∀ (env : Env) (name : String) (r : Row),
      analyzeFunction env name = some r → r.map Prod.fst = rowKeys) := by
  constructor
  · intro env name h
    simp [analyzeFunction, h, emptyConfig, coldStartRisk]
  · intro env name r h
    cases hc : env.getConfig name with
    | error e => simp [analyzeFunction, hc] at h
    | ok config =>
      simp only [analyzeFunction, hc, Option.some.injEq] at h
      subst h
      rfl

/-- A witness for the sparse-configuration theorem, in the environment where
every configuration fetch returns the all-defaults configuration. -/
theorem c10_sparse_config_defaults_witness :
    analyzeFunction envAllOk "f" = some [
      ("Function Name", .str "f"),
      ("Runtime", .str "unknown"),
      ("Memory Size (MB)", .num 0),
      ("Timeout (sec)", .num 0),
      ("Package Type", .str "Zip"),
      ("Provisioned Concurrency", .num 0),
      ("Cold Start Risk", .str "High"),
      ("Invocations", .num (getMetric (envAllOk.fetch "f" "Invocations")).value),
      ("Errors", .num (getMetric (envAllOk.fetch "f" "Errors")).value),
      ("Throttles", .num (getMetric (envAllOk.fetch "f" "Throttles")).value),
      ("Duration (sec)", .num (roundTo2 ((getMetric (envAllOk.fetch "f" "Duration")).value / 1000))),
      ("ConcurrentExecutions", .num (getMetric (envAllOk.fetch "f" "ConcurrentExecutions")).value)] ∧
    ([("Function Name", CellValue.str "f"),
      ("Runtime", CellValue.str "unknown"),
      ("Memory Size (MB)", CellValue.num 0),
      ("Timeout (sec)", CellValue.num 0),
      ("Package Type", CellValue.str "Zip"),
      ("Provisioned Concurrency", CellValue.num 0),
      ("Cold Start Risk", CellValue.str "High"),
      ("Invocations", CellValue.num (getMetric (envAllOk.fetch "f" "Invocations")).value),
      ("Errors", CellValue.num (getMetric (envAllOk.fetch "f" "Errors")).value),
      ("Throttles", CellValue.num (getMetric (envAllOk.fetch "f" "Throttles")).value),
      ("Duration (sec)",
        CellValue.num (roundTo2 ((getMetric (envAllOk.fetch "f" "Duration")).value / 1000))),
      ("ConcurrentExecutions",
        CellValue.num (getMetric (envAllOk.fetch "f" "ConcurrentExecutions")).value)] : Row).map
        Prod.fst = rowKeys :=
  ⟨c10_sparse_config_defaults.1 envAllOk "f" rfl,
   c10_sparse_config_defaults.2 envAllOk "f" _ (c10_sparse_config_defaults.1 envAllOk "f" rfl)⟩

/-- Environment in which the configuration fetch fails (with a
`ClientError`) exactly for the resource named `"x"`, and every metric fetch
throttles forever. -/
def envXFails : Env :=
  ⟨["a", "x", "b"],
   fun n => if n = "x" then .error () else .ok emptyConfig,
   fun _ _ _ => .throttle⟩

/-- C1: partial-failure semantics of the batch.  A resource whose
configuration fetch fails contributes nothing: the batch result equals the
result on the input with that resource removed (so every other resource's
row is untouched) and no row carries the failing resource's name; a row is
produced if and only if the configuration fetch succeeded, so metric-fetch
behaviour can never drop a resource; and a metric whose every attempt fails
(throttle or other error) merely degrades that metric's cell to 0.  The
batch itself is a total function — the embedding returns a plain list, the
counterpart of no exception escaping `analyze_functions_in_batches`. -/
theorem c1_partial_failure :
    (∀ (env : Env) (fns : List String) (x : String),
      env.getConfig x = .error () →
      analyzeFunctionsInBatches env fns =
        analyzeFunctionsInBatches env (fns.filter (fun y => y ≠ x))) ∧
    (∀ (env : Env) (fns : List String) (x : String),
      env.getConfig x = .error () →
      ∀ r ∈ analyzeFunctionsInBatches env fns,
        r.lookup "Function Name" ≠ some (.str x)) ∧
    (∀ (env : Env) (name : String),
      (analyzeFunction env name).isSome = (env.getConfig name).isOk) ∧
    (∀ (env : Env) (name m : String),
      (env.getConfig name).isOk = true →
      m ∈ (["Invocations", "Errors", "Throttles", "ConcurrentExecutions"] : List String) →
      (∀ a, env.fetch name m a = .throttle ∨ env.fetch name m a = .otherError) →
      (analyzeFunction env name).bind (fun r => r.lookup m) = some (.num 0)) ∧
    (∀ (env : Env) (name : String),
      (env.getConfig name).isOk = true →
      (∀ a, env.fetch name "Duration" a = .throttle ∨ env.fetch name "Duration" a = .otherError) →
      (analyzeFunction env name).bind (fun r => r.lookup "Duration (sec)") =
        some (.num 0)) := by
  refine ⟨?_, ?_, ?_, ?_, ?_⟩
  · intro env fns x herr
    rw [analyzeFunctionsInBatches_eq, analyzeFunctionsInBatches_eq]
    induction fns with
    | nil => rfl
    | cons y ys ih =>
      by_cases hy : y = x
      · subst hy
        have hnone : analyzeFunction env y = none := by
          simp [analyzeFunction, herr]
        simp [List.filterMap_cons, List.filter_cons, hnone, ih]
      · cases hfy : analyzeFunction env y <;>
          simp [List.filter_cons, List.filterMap_cons, hy, hfy, ih]
  · intro env fns x herr r hr
    rw [analyzeFunctionsInBatches_eq] at hr
    rw [List.mem_filterMap] at hr
    obtain ⟨y, _, hfy⟩ := hr
    cases hc : env.getConfig y with
    | error e => simp [analyzeFunction, hc] at hfy
    | ok config =>
      simp only [analyzeFunction, hc, Option.some.injEq] at hfy
      subst hfy
      intro hlook
      simp only [List.lookup, beq_self_eq_true, Option.some.injEq] at hlook
      have hyx : y = x := by
        simpa [CellValue.str.injEq] using hlook
      subst hyx
      rw [herr] at hc
      exact Except.noConfusion hc
  · intro env name
    cases hc : env.getConfig name <;>
      simp [analyzeFunction, hc, Except.isOk, Except.toBool]
  · intro env name m hok hm hfail
    obtain ⟨config, hc⟩ : ∃ config, env.getConfig name = .ok config := by
      cases hcc : env.getConfig name with
      | error e => rw [hcc] at hok; exact Bool.noConfusion hok
      | ok config => exact ⟨config, rfl⟩
    simp only [analyzeFunction, hc, Option.bind_some]
    have h0 := getMetricLoop_fail_value _ hfail
    fin_cases hm <;>
      simp [List.lookup, getMetric, h0]
  · intro env name hok hfail
    obtain ⟨config, hc⟩ : ∃ config, env.getConfig name = .ok config := by
      cases hcc : env.getConfig name with
      | error e => rw [hcc] at hok; exact Bool.noConfusion hok
      | ok config => exact ⟨config, rfl⟩
    simp only [analyzeFunction, hc, Option.bind_some]
    have h0 := getMetricLoop_fail_value _ hfail
    simp [List.lookup, getMetric, h0, roundTo2, roundNearest]

/-- A witness for the partial-failure theorem in the environment where the
config fetch for `"x"` fails and every metric fetch throttles forever. -/
theorem c1_partial_failure_witness :
    (analyzeFunctionsInBatches envXFails ["a", "x", "b"] =
      analyzeFunctionsInBatches envXFails
        ((["a", "x", "b"] : List String).filter (fun y => y ≠ "x"))) ∧
    (analyzeFunction envXFails "a").isSome = (envXFails.getConfig "a").isOk ∧
    (analyzeFunction envXFails "a").bind (fun r => r.lookup "Invocations") =
      some (.num 0) ∧
    (analyzeFunction envXFails "a").bind (fun r => r.lookup "Duration (sec)") =
      some (.num 0) :=
  ⟨c1_partial_failure.1 envXFails ["a", "x", "b"] "x" rfl,
   c1_partial_failure.2.2.1 envXFails "a",
   c1_partial_failure.2.2.2.1 envXFails "a" "Invocations" (by decide) (by decide)
     (fun _ => Or.inl rfl),
   c1_partial_failure.2.2.2.2 envXFails "a" (by decide) (fun _ => Or.inl rfl)⟩

/-- Environment with two resources whose rows differ (in the
`"Function Name"` cell): every metric fetch for `"a"` throttles on every
attempt — so under the real event loop task `"a"` spends 31 seconds in
backoff sleeps per metric and finishes long after task `"b"`, making
`[1, 0]` the completion order — while `"b"`'s fetches succeed at once. -/
def envTwo : Env :=
  ⟨["a", "b"],
   fun _ => .ok emptyConfig,
   fun n _ _ => if n = "a" then .throttle else .ok []⟩

/-- C3 (counterexample): with completion order `[1, 0]` — task `"b"`
finishing before the long-throttled task `"a"` — the report the code
produces is not the completion-order report: `asyncio.gather` returns
results in the order the tasks were submitted, so the rows stay in input
order `[a-row, b-row]`, not `[b-row, a-row]`. -/
theorem c3_completion_order_counterexample :
    analyzeFunctionsInBatches envTwo ["a", "b"] ≠
      completionOrderRows envTwo ["a", "b"] [1, 0] := by
  rw [analyzeFunctionsInBatches_eq]
  decide

/-- C3 (amended): the rows of the final report are the produced rows in the
chunk's input order — the concatenation over chunks of each chunk's
non-`None` results in submission order, i.e. the input-order `filterMap` of
the whole list — independent of the order in which tasks complete. -/
theorem c3_rows_in_input_order :
    ∀ (env : Env) (allFunctions : List String),
      analyzeFunctionsInBatches env allFunctions =
        allFunctions.filterMap (analyzeFunction env) :=
  analyzeFunctionsInBatches_eq

/-- A request body with all four fields present and a valid date range. -/
def bodyOkDates : ReqBody :=
  ⟨some "us-east-1", some "2024-01-01", some "2024-01-03", some "bkt"⟩

/-- C9: report assembly.  The empty row sequence is the distinct no-data
failure — a 500 with the bare message, not a `build_response` validation
error and not a crash (the embedding is total) — and `handle_event` returns
exactly that response when collection yields no rows; a non-empty sequence
takes its headers from the first row's keys in that row's order and renders
every row in header order; and the rendered cell in the column of header `h`
is the row's value at `h` when the key is bound, the empty string
otherwise. -/
theorem c9_report_assembly :
    reportStep [] = .error "No function metrics collected." ∧
    (∀ msg : String,
      (⟨500, .plain "No function metrics collected."⟩ : Resp) ≠ buildResponse 400 msg) ∧
    (∀ (first : Row) (rest : List Row),
      reportStep (first :: rest) =
        .ok (first.map Prod.fst,
          (first :: rest).map (fun item =>
            (first.map Prod.fst).map (fun h => (item.lookup h).getD (.str ""))))) ∧
    (∀ (item : Row) (headers : List String) (h : String),
      h ∈ headers →
      (headers.map (fun k => (item.lookup k).getD (.str "")))[headers.indexOf h]? =
        some ((item.lookup h).getD (.str ""))) ∧
    (∀ (env : Env) (body : ReqBody) (s e : Date),
      truthy body.region = true → truthy body.start_date = true →
      truthy body.end_date = true → truthy body.bucket_name = true →
      strptimeYmd (body.start_date.getD "") = some s →
      strptimeYmd (body.end_date.getD "") = some e →
      toDays s < toDays e + 1 →
      analyzeFunctionsInBatches env env.functions = [] →
      handleEvent env (some body) = ⟨500, .plain "No function metrics collected."⟩) := by
  refine ⟨rfl, ?_, fun first rest => rfl, ?_, ?_⟩
  · intro msg h
    simp [buildResponse, Resp.mk.injEq] at h
  · intro item headers h hmem
    rw [List.getElem?_map, List.getElem?_indexOf hmem]
    rfl
  · intro env body s e h1 h2 h3 h4 h5 h6 h7 h8
    have hlt : ¬ (toDays e + 1 ≤ toDays s) := Nat.not_le.mpr h7
    simp [handleEvent, h1, h2, h3, h4, h5, h6, h8, hlt, reportStep]

/-- A witness for the report-assembly theorem: a row missing header `"B"`
renders the empty string in that column, and the empty collection makes
`handle_event` return the no-data 500. -/
theorem c9_report_assembly_witness :
    ((["A", "B"].map
        (fun k => (([("A", CellValue.num 1)] : Row).lookup k).getD (.str "")))[
          (["A", "B"] : List String).indexOf "B"]? =
      some ((([("A", CellValue.num 1)] : Row).lookup "B").getD (.str ""))) ∧
    handleEvent envAllOk (some bodyOkDates) =
      ⟨500, .plain "No function metrics collected."⟩ :=
  ⟨c9_report_assembly.2.2.2.1 [("A", CellValue.num 1)] ["A", "B"] "B" (by decide),
   c9_report_assembly.2.2.2.2 envAllOk bodyOkDates ⟨2024, 1, 1⟩ ⟨2024, 1, 3⟩
     (by decide) (by decide) (by decide) (by decide) (by decide) (by decide) (by decide)
     (by rw [analyzeFunctionsInBatches_eq]; rfl)⟩

/-- A request whose start and end date are the same day. -/
def eventEqualDates : ReqBody :=
  ⟨some "us-east-1", some "2024-01-02", some "2024-01-02", some "bkt"⟩

/-- A request whose dates are in reversed order. -/
def eventReversed : ReqBody :=
  ⟨some "us-east-1", some "2024-01-03", some "2024-01-02", some "bkt"⟩

/-- C5 (counterexample): a request with `start_date = end_date =
"2024-01-02"` is not rejected — the computed window end is the day after the
shared date, so `start_time >= end_time` is false — and remote calls are
issued, contradicting the claim that equal dates are rejected with zero
remote calls. -/
theorem c5_equal_dates_counterexample :
    handleEvent envTwo (some eventEqualDates) ≠
      buildResponse 400 "Start date must be before end date." ∧
    handleEventCalls envTwo (some eventEqualDates) ≠ [] := by
  constructor
  · have hrows := analyzeFunctionsInBatches_eq envTwo envTwo.functions
    simp only [handleEvent, hrows]
    decide
  · have hrows := analyzeFunctionsInBatches_eq envTwo envTwo.functions
    simp only [handleEventCalls, hrows]
    decide

/-- C5 (amended): with all four fields present and both dates parsing, the
window is `[start, end + 1 day)` and the request is rejected — with the
date-range validation error and zero remote calls — exactly when
`start ≥ end + 1 day`, i.e. when the dates are in strictly reversed order;
otherwise (including `start_date = end_date`) the request proceeds: the
response is not the date-range rejection, the function listing call is
issued, and every metric query uses the window
`[toDays start, toDays end + 1)`. -/
theorem c5_window_validation :
    ∀ (env : Env) (body : ReqBody) (s e : Date),
      truthy body.region = true → truthy body.start_date = true →
      truthy body.end_date = true → truthy body.bucket_name = true →
      strptimeYmd (body.start_date.getD "") = some s →
      strptimeYmd (body.end_date.getD "") = some e →
      ((toDays e + 1 ≤ toDays s →
        handleEvent env (some body) =
          buildResponse 400 "Start date must be before end date." ∧
        handleEventCalls env (some body) = []) ∧
       (toDays s < toDays e + 1 →
        handleEvent env (some body) ≠
          buildResponse 400 "Start date must be before end date." ∧
        (handleEventCalls env (some body)).head? = some .listFunctions ∧
        (∀ c ∈ handleEventCalls env (some body), ∀ n m a b,
          c = .getMetricStatistics n m a b → a = toDays s ∧ b = toDays e + 1))) := by
  intro env body s e h1 h2 h3 h4 h5 h6
  constructor
  · intro hge
    constructor
    · simp [handleEvent, h1, h2, h3, h4, h5, h6, hge]
    · simp [handleEventCalls, h1, h2, h3, h4, h5, h6, hge]
  · intro hlt
    have hnle : ¬ (toDays e + 1 ≤ toDays s) := Nat.not_le.mpr hlt
    refine ⟨?_, ?_, ?_⟩
    · simp only [handleEvent, h1, h2, h3, h4, h5, h6, Bool.and_self, if_true, hnle,
        if_false]
      cases hrep : reportStep (analyzeFunctionsInBatches env env.functions) with
      | error msg => simp [hrep, hnle, buildResponse]
      | ok t => simp [hrep, hnle, buildResponse]
    · simp [handleEventCalls, h1, h2, h3, h4, h5, h6, hnle]
    · intro c hc n m a b hcm
      simp only [handleEventCalls, h1, h2, h3, h4, h5, h6, Bool.and_self, if_true,
        hnle, if_false] at hc
      rcases List.mem_cons.mp hc with rfl | hc'
      · exact RemoteCall.noConfusion hcm
      rcases List.mem_append.mp hc' with hc2 | hc2
      · obtain ⟨y, _, hcy⟩ := List.mem_flatMap.mp hc2
        rw [analyzeFunctionCalls] at hcy
        rcases List.mem_cons.mp hcy with rfl | hcy2
        · exact RemoteCall.noConfusion hcm
        cases hcfg : env.getConfig y with
        | error err => rw [hcfg] at hcy2; exact absurd hcy2 (List.not_mem_nil c)
        | ok config =>
          rw [hcfg] at hcy2
          obtain ⟨m2, _, hrep2⟩ := List.mem_flatMap.mp hcy2
          have hce := List.eq_of_mem_replicate hrep2
          subst hce
          obtain ⟨-, -, ha, hb⟩ := RemoteCall.getMetricStatistics.inj hcm.symm
          exact ⟨ha, hb⟩
      · by_cases hempty : analyzeFunctionsInBatches env env.functions = []
        · rw [if_pos hempty] at hc2
          exact absurd hc2 (List.not_mem_nil c)
        · rw [if_neg hempty] at hc2
          have := List.mem_singleton.mp hc2
          subst this
          exact RemoteCall.noConfusion hcm

/-- A witness for the window-validation theorem: reversed dates are rejected
with no remote calls, while equal dates proceed to the function listing. -/
theorem c5_window_validation_witness :
    (handleEvent envAllOk (some eventReversed) =
      buildResponse 400 "Start date must be before end date." ∧
     handleEventCalls envAllOk (some eventReversed) = []) ∧
    (handleEventCalls envTwo (some eventEqualDates)).head? = some .listFunctions :=
  ⟨(c5_window_validation envAllOk eventReversed ⟨2024, 1, 3⟩ ⟨2024, 1, 2⟩
      (by decide) (by decide) (by decide) (by decide) (by decide) (by decide)).1
      (by decide),
   ((c5_window_validation envTwo eventEqualDates ⟨2024, 1, 2⟩ ⟨2024, 1, 2⟩
      (by decide) (by decide) (by decide) (by decide) (by decide) (by decide)).2
      (by decide)).2.1⟩

/-- A request whose start date does not parse as `%Y-%m-%d`. -/
def eventBadDate : ReqBody :=
  ⟨some "us-east-1", some "not-a-date", some "2024-01-03", some "bkt"⟩

/-- C8 (counterexample): a request with the unparseable start date
`"not-a-date"` is answered with the generic 500 internal error — the
`ValueError` from `strptime` is caught only by the top-level
`except Exception` handler — not with a 400 validation error as the claim
states. -/
theorem c8_malformed_date_counterexample :
    handleEvent envAllOk (some eventBadDate) =
      buildResponse 500 "Internal server error." ∧
    (handleEvent envAllOk (some eventBadDate)).statusCode ≠ 400 := by
  constructor <;> decide

/-- C8 (amended): a missing body, a missing-or-empty required field, and a
reversed date range are each rejected immediately with a 400 validation
error and zero remote calls; a malformed (unparseable) date string also
short-circuits before any remote call, but it surfaces as the generic 500
internal error from the top-level exception handler, not as a validation
error. -/
theorem c8_request_validation :
    (∀ env : Env,
      handleEvent env none = buildResponse 400 "Missing request body." ∧
      handleEventCalls env none = []) ∧
    (∀ (env : Env) (body : ReqBody),
      (truthy body.region && truthy body.start_date && truthy body.end_date &&
        truthy body.bucket_name) = false →
      handleEvent env (some body) =
        buildResponse 400 "Missing one or more required fields in request body." ∧
      handleEventCalls env (some body) = []) ∧
    (∀ (env : Env) (body : ReqBody),
      (truthy body.region && truthy body.start_date && truthy body.end_date &&
        truthy body.bucket_name) = true →
      (strptimeYmd (body.start_date.getD "") = none ∨
       strptimeYmd (body.end_date.getD "") = none) →
      handleEvent env (some body) = buildResponse 500 "Internal server error." ∧
      handleEventCalls env (some body) = []) ∧
    (∀ (env : Env) (body : ReqBody) (s e : Date),
      (truthy body.region && truthy body.start_date && truthy body.end_date &&
        truthy body.bucket_name) = true →
      strptimeYmd (body.start_date.getD "") = some s →
      strptimeYmd (body.end_date.getD "") = some e →
      toDays e + 1 ≤ toDays s →
      handleEvent env (some body) =
        buildResponse 400 "Start date must be before end date." ∧
      handleEventCalls env (some body) = []) := by
  refine ⟨fun env => ⟨rfl, rfl⟩, ?_, ?_, ?_⟩
  · intro env body hfalse
    constructor <;> simp [handleEvent, handleEventCalls, hfalse]
  · intro env body htrue hnone
    rcases hnone with h | h
    · constructor <;> simp [handleEvent, handleEventCalls, htrue, h]
    · cases hs : strptimeYmd (body.start_date.getD "") with
      | none => constructor <;> simp [handleEvent, handleEventCalls, htrue, hs]
      | some s => constructor <;> simp [handleEvent, handleEventCalls, htrue, hs, h]
  · intro env body s e htrue hs he hge
    constructor <;> simp [handleEvent, handleEventCalls, htrue, hs, he, hge]

/-- A witness for the request-validation theorem: each rejection path
evaluated at a concrete request against the all-defaults environment. -/
theorem c8_request_validation_witness :
    (handleEvent envAllOk none = buildResponse 400 "Missing request body." ∧
     handleEventCalls envAllOk none = []) ∧
    (handleEvent envAllOk (some ⟨some "us-east-1", some "2024-01-01", some "2024-01-03", none⟩) =
      buildResponse 400 "Missing one or more required fields in request body." ∧
     handleEventCalls envAllOk
       (some ⟨some "us-east-1", some "2024-01-01", some "2024-01-03", none⟩) = []) ∧
    (handleEvent envAllOk (some eventBadDate) =
      buildResponse 500 "Internal server error." ∧
     handleEventCalls envAllOk (some eventBadDate) = []) ∧
    (handleEvent envAllOk (some eventReversed) =
      buildResponse 400 "Start date must be before end date." ∧
     handleEventCalls envAllOk (some eventReversed) = []) :=
  ⟨c8_request_validation.1 envAllOk,
   c8_request_validation.2.1 envAllOk _ (by decide),
   c8_request_validation.2.2.1 envAllOk eventBadDate (by decide) (Or.inl (by decide)),
   c8_request_validation.2.2.2 envAllOk eventReversed ⟨2024, 1, 3⟩ ⟨2024, 1, 2⟩
     (by decide) (by decide) (by decide) (by decide)⟩

/-- Updating one task's program counter changes the slot count by the
difference of that task's old and new in-section indicators. -/
lemma activeCount_set :
    ∀ (pcs : List Nat) (progs : List (List Action)) (i v pc : Nat) (p : List Action),
      pcs[i]? = some pc → progs[i]? = some p →
      activeCount (pcs.set i v) progs +
          (if 1 ≤ pc ∧ pc < p.length then 1 else 0) =
        activeCount pcs progs + (if 1 ≤ v ∧ v < p.length then 1 else 0) := by
  intro pcs
  induction pcs with
  | nil => intro progs i v pc p hpc hp; simp at hpc
  | cons pc0 pcs ih =>
    intro progs i v pc p hpc hp
    cases progs with
    | nil => simp at hp
    | cons p0 ps =>
      cases i with
      | zero =>
        rw [List.getElem?_cons_zero, Option.some.injEq] at hpc hp
        subst hpc
        subst hp
        rw [List.set_cons_zero]
        simp only [activeCount]
        omega
      | succ n =>
        rw [List.getElem?_cons_succ] at hpc hp
        rw [List.set_cons_succ]
        simp only [activeCount]
        have hrec := ih ps n v pc p hpc hp
        omega

/-- An action of an `analyze_function` program determines its position: the
`acquire` is at index 0, a body action (work or sleep) lies strictly between
the `acquire` and the `release`, and the `release` is the final action. -/
lemma analyzeProgram_at (body : List Action)
    (hb : ∀ a ∈ body, a = Action.work ∨ a = Action.sleep) (pc : Nat) (a : Action)
    (h : (analyzeProgram body)[pc]? = some a) :
    (pc = 0 ∧ a = Action.acquire) ∨
    (1 ≤ pc ∧ pc ≤ body.length ∧ (a = Action.work ∨ a = Action.sleep)) ∨
    (pc = body.length + 1 ∧ a = Action.release) := by
  cases pc with
  | zero =>
    left
    rw [analyzeProgram, List.getElem?_cons_zero, Option.some.injEq] at h
    exact ⟨rfl, h.symm⟩
  | succ j =>
    rw [analyzeProgram, List.getElem?_cons_succ] at h
    rcases Nat.lt_trichotomy j body.length with hj | hj | hj
    · right; left
      rw [List.getElem?_append_left hj] at h
      exact ⟨Nat.succ_le_succ (Nat.zero_le j), hj, hb a (List.getElem?_mem h)⟩
    · right; right
      subst hj
      rw [List.getElem?_append_right le_rfl, Nat.sub_self,
        List.getElem?_cons_zero, Option.some.injEq] at h
      exact ⟨rfl, h.symm⟩
    · exfalso
      have hnone : (body ++ [Action.release])[j]? = none :=
        List.getElem?_eq_none (by simp; omega)
      rw [hnone] at h
      exact Option.noConfusion h

/-- One scheduler step preserves the semaphore bound: an admitted `acquire`
needs a free slot, a body action keeps the task inside its section, and a
`release` frees a slot. -/
lemma schedStep_inv (bodies : List (List Action))
    (hb : ∀ body ∈ bodies, ∀ a ∈ body, a = Action.work ∨ a = Action.sleep)
    (K : Nat) (pcs : List Nat) (i : Nat) (pcs' : List Nat)
    (hstep : schedStep (bodies.map analyzeProgram) K pcs i = some pcs')
    (hcnt : activeCount pcs (bodies.map analyzeProgram) ≤ K) :
    activeCount pcs' (bodies.map analyzeProgram) ≤ K := by
  cases hp : (bodies.map analyzeProgram)[i]? with
  | none => rw [schedStep, hp] at hstep; exact Option.noConfusion hstep
  | some p =>
  cases hpc : pcs[i]? with
  | none => rw [schedStep, hp, hpc] at hstep; exact Option.noConfusion hstep
  | some pc =>
  rw [schedStep, hp, hpc] at hstep
  simp only [] at hstep
  obtain ⟨body, hbody, hpeq⟩ : ∃ body, bodies[i]? = some body ∧ p = analyzeProgram body := by
    rw [List.getElem?_map] at hp
    cases hbi : bodies[i]? with
    | none => rw [hbi] at hp; exact Option.noConfusion hp
    | some b =>
      rw [hbi] at hp
      exact ⟨b, rfl, by injection hp with hq; exact hq.symm⟩
  have hbmem : body ∈ bodies := List.getElem?_mem hbody
  have hlenp : p.length = body.length + 2 := by
    subst hpeq; simp [analyzeProgram]
  have hset := activeCount_set pcs (bodies.map analyzeProgram) i (pc + 1) pc p hpc hp
  cases ha : p[pc]? with
  | none => rw [ha] at hstep; exact Option.noConfusion hstep
  | some a =>
  rw [ha] at hstep
  have hpos := analyzeProgram_at body (hb body hbmem) pc a (by rw [← hpeq]; exact ha)
  cases a with
  | acquire =>
    by_cases hlt : activeCount pcs (bodies.map analyzeProgram) < K
    · rw [if_pos hlt, Option.some.injEq] at hstep
      subst hstep
      have hpc0 : pc = 0 := by
        rcases hpos with ⟨h0, -⟩ | ⟨-, -, hw | hw⟩ | ⟨-, hw⟩ <;> first
          | exact h0
          | exact Action.noConfusion hw
      subst hpc0
      have hin : (if 1 ≤ 0 ∧ 0 < p.length then 1 else 0) = 0 := by norm_num
      have hout : (if 1 ≤ 0 + 1 ∧ 0 + 1 < p.length then 1 else 0) = 1 := by
        rw [if_pos ⟨le_rfl, by omega⟩]
      omega
    · rw [if_neg hlt] at hstep
      exact Option.noConfusion hstep
  | work =>
    rw [Option.some.injEq] at hstep
    subst hstep
    have hrange : 1 ≤ pc ∧ pc ≤ body.length := by
      rcases hpos with ⟨-, hw⟩ | ⟨h1, h2, -⟩ | ⟨-, hw⟩ <;> first
        | exact ⟨h1, h2⟩
        | exact Action.noConfusion hw
    have hin : (if 1 ≤ pc ∧ pc < p.length then 1 else 0) = 1 := by
      rw [if_pos ⟨hrange.1, by omega⟩]
    have hout : (if 1 ≤ pc + 1 ∧ pc + 1 < p.length then 1 else 0) = 1 := by
      rw [if_pos ⟨by omega, by omega⟩]
    omega
  | sleep =>
    rw [Option.some.injEq] at hstep
    subst hstep
    have hrange : 1 ≤ pc ∧ pc ≤ body.length := by
      rcases hpos with ⟨-, hw⟩ | ⟨h1, h2, -⟩ | ⟨-, hw⟩ <;> first
        | exact ⟨h1, h2⟩
        | exact Action.noConfusion hw
    have hin : (if 1 ≤ pc ∧ pc < p.length then 1 else 0) = 1 := by
      rw [if_pos ⟨hrange.1, by omega⟩]
    have hout : (if 1 ≤ pc + 1 ∧ pc + 1 < p.length then 1 else 0) = 1 := by
      rw [if_pos ⟨by omega, by omega⟩]
    omega
  | release =>
    rw [Option.some.injEq] at hstep
    subst hstep
    have hpcend : pc = body.length + 1 := by
      rcases hpos with ⟨-, hw⟩ | ⟨-, -, hw | hw⟩ | ⟨h0, -⟩ <;> first
        | exact h0
        | exact Action.noConfusion hw
    have hin : (if 1 ≤ pc ∧ pc < p.length then 1 else 0) = 1 := by
      rw [if_pos ⟨by omega, by omega⟩]
    have hout : (if 1 ≤ pc + 1 ∧ pc + 1 < p.length then 1 else 0) = 0 := by
      rw [if_neg (by omega)]
    omega

/-- The semaphore bound is an invariant of every run of the scheduler. -/
lemma runSchedFrom_inv (bodies : List (List Action))
    (hb : ∀ body ∈ bodies, ∀ a ∈ body, a = Action.work ∨ a = Action.sleep)
    (K : Nat) :
    ∀ (choices : List Nat) (pcs : List Nat),
      activeCount pcs (bodies.map analyzeProgram) ≤ K →
      ∀ pcs', runSchedFrom (bodies.map analyzeProgram) K choices pcs = some pcs' →
      activeCount pcs' (bodies.map analyzeProgram) ≤ K := by
  intro choices
  induction choices with
  | nil =>
    intro pcs h pcs' hrun
    rw [runSchedFrom, Option.some.injEq] at hrun
    subst hrun
    exact h
  | cons c cs ih =>
    intro pcs h pcs' hrun
    rw [runSchedFrom] at hrun
    cases hst : schedStep (bodies.map analyzeProgram) K pcs c with
    | none => rw [hst] at hrun; exact Option.noConfusion hrun
    | some mid =>
      rw [hst] at hrun
      exact ih mid (schedStep_inv bodies hb K pcs c mid hst h) pcs' hrun

/-- No task holds a slot before the schedule starts. -/
lemma activeCount_replicate_zero (progs : List (List Action)) :
    activeCount (List.replicate progs.length 0) progs = 0 := by
  induction progs with
  | nil => rfl
  | cons p ps ih =>
    simp only [List.length_cons, List.replicate_succ, activeCount, ih]
    norm_num

/-- C2: for programs of the `analyze_function` shape — an `acquire`, then a
body of awaits and backoff sleeps, then a `release` — every state reachable
under any schedule has at most `K` tasks holding semaphore slots (a task
holds its slot from its `acquire` until its `release` has run); every
backoff sleep lies strictly between the task's `acquire` and its `release`,
so the slot is held across all backoff sleeps; and the `release` is the very
last action of the program, so the slot is given up only when the analysis
returns. -/
theorem c2_semaphore_bound :
    ∀ (bodies : List (List Action)) (K : Nat) (choices : List Nat),
      (∀ body ∈ bodies, ∀ a ∈ body, a = Action.work ∨ a = Action.sleep) →
      (∀ pcs', runSched (bodies.map analyzeProgram) K choices = some pcs' →
        activeCount pcs' (bodies.map analyzeProgram) ≤ K) ∧
      (∀ body ∈ bodies, ∀ j,
        (analyzeProgram body)[j]? = some Action.sleep →
        0 < j ∧ j + 1 < (analyzeProgram body).length) ∧
      (∀ body ∈ bodies, ∀ j,
        (analyzeProgram body)[j]? = some Action.release →
        j + 1 = (analyzeProgram body).length) := by
  intro bodies K choices hb
  refine ⟨?_, ?_, ?_⟩
  · intro pcs' hrun
    rw [runSched] at hrun
    exact runSchedFrom_inv bodies hb K choices
      (List.replicate (List.map analyzeProgram bodies).length 0)
      (by rw [activeCount_replicate_zero]; exact Nat.zero_le K) pcs' hrun
  · intro body hbody j hj
    have hlen : (analyzeProgram body).length = body.length + 2 := by
      simp [analyzeProgram]
    rcases analyzeProgram_at body (hb body hbody) j _ hj with
      ⟨-, hw⟩ | ⟨h1, h2, -⟩ | ⟨-, hw⟩
    · exact Action.noConfusion hw
    · omega
    · exact Action.noConfusion hw
  · intro body hbody j hj
    have hlen : (analyzeProgram body).length = body.length + 2 := by
      simp [analyzeProgram]
    rcases analyzeProgram_at body (hb body hbody) j _ hj with
      ⟨-, hw⟩ | ⟨-, -, hw | hw⟩ | ⟨h0, -⟩
    · exact Action.noConfusion hw
    · exact Action.noConfusion hw
    · exact Action.noConfusion hw
    · omega

/-- A witness for the semaphore theorem: a two-task run with capacity 1 in
which task 0 acquires, sleeps, releases, and then task 1 runs, ending with
at most one slot ever held. -/
theorem c2_semaphore_bound_witness :
    activeCount [3, 2] ([[Action.sleep], []].map analyzeProgram) ≤ 1 :=
  (c2_semaphore_bound [[Action.sleep], []] 1 [0, 0, 0, 1, 1] (by decide)).1
    [3, 2] (by decide)

end LambdaDashboard
